import Mathlib

/-!
# Vehicle tracker: route fetching and the animation state machine

A shallow embedding of `src/App.js`.  The React component keeps its state in
`useState` cells and two refs; here that state is one record, and every
handler is a function from the state before to the state after.  Numbers are
rationals: the arithmetic of the program is read exactly, without
floating-point rounding.

A handler invoked by the user is the one of the latest render, so it reads
`routeCoords` and `isMoving` of the current state (`State.render`); a pending
animation callback keeps the closure of the render that started the
animation.  The continuation of a fetch is one step on the state in which it
runs.  At most one animation callback is pending at any time
(`pending_frame_implies_moving`), so one optional `Frame` holds it.

External collaborators are parameters:

* `apiKey`      the string exported by `./API_KEY`;
* `fmt`         JavaScript's number-to-string conversion inside a template literal;
* `get`         the directions service behind `axios.get`;
* `distanceTo`  Leaflet's `L.latLng(a).distanceTo(L.latLng(b))`.
-/

namespace VehicleTracker

/-! ## JavaScript values -/

/-- JavaScript values that can reach the component: the contents of a parsed
response body, `undefined`, and the arrays the component builds from them.
An object is its list of fields; an earlier entry shadows a later one. -/
inductive JsVal where
  | undefined
  | null
  | bool (b : Bool)
  | num (q : ℚ)
  | str (s : String)
  | arr (items : List JsVal)
  | obj (fields : List (String × JsVal))

/-- Errors the component can meet. -/
inductive JsError where
  | typeError
  | requestFailed
  deriving DecidableEq, Repr

/-- Read of a named property, `v.key`, for the keys `features`, `geometry` and
`coordinates` (none of them is a property of arrays, strings, numbers or
booleans): reading from `undefined` or `null` throws a TypeError, an object
gives the field or `undefined`, everything else gives `undefined`. -/
def JsVal.getProp (v : JsVal) (key : String) : Except JsError JsVal :=
  match v with
  | .undefined => .error .typeError
  | .null => .error .typeError
  | .obj fields => .ok ((fields.lookup key).getD .undefined)
  | _ => .ok .undefined

/-- Indexed read `v[i]`: reading from `undefined` or `null` throws a
TypeError, an array gives its element or `undefined`, a string its `i`-th
character (for text of the Basic Multilingual Plane), an object the field
named by the decimal numeral of `i`, a number or boolean `undefined`. -/
def JsVal.getIndex (v : JsVal) (i : Nat) : Except JsError JsVal :=
  match v with
  | .undefined => .error .typeError
  | .null => .error .typeError
  | .arr items => .ok (items.getD i .undefined)
  | .str s => .ok (match s.toList.get? i with
      | some c => .str (String.singleton c)
      | none => .undefined)
  | .obj fields => .ok ((fields.lookup (toString i)).getD .undefined)
  | _ => .ok .undefined

/-- Elementwise evaluation of a callback that may throw, in order, stopping
at the first exception: the loop inside `Array.prototype.map`. -/
def mapItems (f : JsVal → Except JsError JsVal) : List JsVal → Except JsError (List JsVal)
  | [] => .ok []
  | c :: cs =>
    match f c with
    | .error e => .error e
    | .ok y =>
      match mapItems f cs with
      | .error e => .error e
      | .ok ys => .ok (y :: ys)

/-- Call of `v.map(f)` on a value of a response body: an array is mapped;
on `undefined` and `null` the property read throws, and on every other value
`map` is not a function, a TypeError as well. -/
def JsVal.map (v : JsVal) (f : JsVal → Except JsError JsVal) : Except JsError (List JsVal) :=
  match v with
  | .arr items => mapItems f items
  | _ => .error .typeError

/-- Truthiness test `!v`. -/
def JsVal.falsy : JsVal → Bool
  | .undefined => true
  | .null => true
  | .bool b => !b
  | .num q => decide (q = 0)
  | .str s => decide (s = "")
  | .arr _ => false
  | .obj _ => false

/-- The two-element array `[lat, lng]` of two numbers. -/
def JsVal.point (p : ℚ × ℚ) : JsVal := .arr [.num p.1, .num p.2]

/-! ## Static configuration and component state -/

/-- An entry of the constant `routes`. -/
structure Route where
  waypoints : List (ℚ × ℚ)

/-- The constant `routes` (App.js lines 21-34). -/
def routes : List Route :=
  [ { waypoints := [(25.4358, 81.8463), (25.555, 81.9863)] },
    { waypoints := [(25.4358, 81.8463), (25.565, 81.9963)] } ]

/-- Values of the state cell `selectedRoute`. -/
inductive Selected where
  | null
  | undefined
  | route (r : Route)

/-- The state cell `speed`; `setSpeed` is never called, so it keeps its
initial value. -/
def speed : ℚ := 5

/-- What a render binds into the handlers it creates: the values of
`routeCoords` and `isMoving` that `moveVehicle` and `toggleMovement` read
from their enclosing scope. -/
structure Closure where
  routeCoords : List JsVal
  isMoving : Bool

/-- A callback `animate` registered with `requestAnimationFrame` and not yet
run: the `moveVehicle` closure it belongs to, and the variables `start`,
`end`, `duration` and `startTime` of that call of `moveVehicle`.  `start` and
`end` are kept as the number pairs Leaflet read from them. -/
structure Frame where
  closure : Closure
  start : ℚ × ℚ
  endPoint : ℚ × ℚ
  duration : ℚ
  startTime : Option ℚ

/-- The component state: the `useState` cells, `routeIndexRef.current`, and
the callback registered under `animationRef.current` while it is pending. -/
structure State where
  selectedRoute : Selected
  routeCoords : List JsVal
  vehiclePos : JsVal
  isMoving : Bool
  routeIndex : Nat
  frame : Option Frame

/-- State of the freshly mounted component (App.js lines 37-44). -/
def State.initial : State :=
  { selectedRoute := .null, routeCoords := [], vehiclePos := .null,
    isMoving := false, routeIndex := 0, frame := none }

/-- The closure of the latest render of a state. -/
def State.render (st : State) : Closure :=
  { routeCoords := st.routeCoords, isMoving := st.isMoving }

/-- Outcome of a handler: the state it leaves, the URLs it requested, what it
wrote to `console.error`, and the exception that escaped it, if any. -/
structure Effect where
  state : State
  requests : List String
  logged : List JsError
  thrown : Option JsError

/-! ## Route fetch adapter (App.js lines 47-64) -/

/-- Result of `axios.get`: the promise rejects (transport error, or a status
outside 2xx), or resolves to a response whose `data` is the given value. -/
inductive HttpResult where
  | rejected
  | response (data : JsVal)

/-- The text `${point[1]},${point[0]}`. -/
def lngLat (fmt : ℚ → String) (point : ℚ × ℚ) : String :=
  fmt point.2 ++ "," ++ fmt point.1

/-- The method `Array.prototype.join` on an array of strings. -/
def join (sep : String) : List String → String
  | [] => ""
  | [s] => s
  | s :: t :: rest => s ++ sep ++ join sep (t :: rest)

/-- The constant `waypointsParam` of `fetchRoute` (lines 48-50). -/
def waypointsParam (fmt : ℚ → String) (waypoints : List (ℚ × ℚ)) : String :=
  join "|" (waypoints.map (lngLat fmt))

/-- The template literal passed to `axios.get` (line 54).  Reading
`waypoints[0][1]` throws a TypeError when the list is empty. -/
def requestUrl (apiKey : String) (fmt : ℚ → String) (waypoints : List (ℚ × ℚ)) :
    Except JsError String :=
  match waypoints[0]?, waypoints[waypoints.length - 1]? with
  | some first, some last =>
    .ok ("https://api.openrouteservice.org/v2/directions/driving-car?api_key=" ++ apiKey
      ++ "&start=" ++ fmt first.2 ++ "," ++ fmt first.1
      ++ "&end=" ++ fmt last.2 ++ "," ++ fmt last.1
      ++ "&waypoints=" ++ waypointsParam fmt waypoints)
  | _, _ => .error .typeError

/-- The callback `(coord) => [coord[1], coord[0]]` (line 58). -/
def swapCoord (coord : JsVal) : Except JsError JsVal :=
  match coord.getIndex 1 with
  | .error e => .error e
  | .ok c1 =>
    match coord.getIndex 0 with
    | .error e => .error e
    | .ok c0 => .ok (.arr [c1, c0])

/-- The value `response.data.features[0].geometry.coordinates`. -/
def geometryCoordinates (data : JsVal) : Except JsError JsVal :=
  match data.getProp "features" with
  | .error e => .error e
  | .ok features =>
    match features.getIndex 0 with
    | .error e => .error e
    | .ok feature =>
      match feature.getProp "geometry" with
      | .error e => .error e
      | .ok geometry => geometry.getProp "coordinates"

/-- The constant `coords` of `fetchRoute` (line 58). -/
def extractCoords (data : JsVal) : Except JsError (List JsVal) :=
  match geometryCoordinates data with
  | .error e => .error e
  | .ok coordinates => coordinates.map swapCoord

/-- The function `fetchRoute` (lines 47-64), as the effect of the whole
asynchronous call on the state in which its continuation runs.  Every
exception of the `try` block is caught and logged. -/
def fetchRoute (apiKey : String) (fmt : ℚ → String) (get : String → HttpResult)
    (waypoints : List (ℚ × ℚ)) (st : State) : Effect :=
  match requestUrl apiKey fmt waypoints with
  | .error e => { state := st, requests := [], logged := [e], thrown := none }
  | .ok url =>
    match get url with
    | .rejected => { state := st, requests := [url], logged := [.requestFailed], thrown := none }
    | .response data =>
      match extractCoords data with
      | .error e => { state := st, requests := [url], logged := [e], thrown := none }
      | .ok coords =>
        { state := { st with routeCoords := coords, vehiclePos := coords.getD 0 .undefined },
          requests := [url], logged := [], thrown := none }

/-- Value of the `select` element: the placeholder option (value `""`) or the
option rendered for an index. -/
inductive OptionValue where
  | placeholder
  | index (i : Nat)

/-- The expression `routes[selectedIndex]`. -/
def lookupRoute : OptionValue → Option Route
  | .placeholder => none
  | .index i => routes[i]?

/-- The function `handleRouteChange` (lines 110-114), followed by the
continuation of the fetch it starts.  When `routes[selectedIndex]` is
`undefined`, reading its `waypoints` throws after `setSelectedRoute` ran. -/
def handleRouteChange (apiKey : String) (fmt : ℚ → String) (get : String → HttpResult)
    (value : OptionValue) (st : State) : Effect :=
  match lookupRoute value with
  | none =>
    { state := { st with selectedRoute := .undefined }, requests := [], logged := [],
      thrown := some .typeError }
  | some r => fetchRoute apiKey fmt get r.waypoints { st with selectedRoute := .route r }

/-! ## Animation driver (App.js lines 67-130) -/

/-- The number pair Leaflet's `L.latLng` reads from a two-element array of
numbers; `none` for every other value. -/
def latLng : JsVal → Option (ℚ × ℚ)
  | .arr [.num lat, .num lng] => some (lat, lng)
  | _ => none

/-- The position written by `animate` (lines 92-93):
`[start[0] + progress * (end[0] - start[0]), start[1] + progress * (end[1] - start[1])]`. -/
def interpolate (start endPoint : ℚ × ℚ) (progress : ℚ) : ℚ × ℚ :=
  (start.1 + progress * (endPoint.1 - start.1), start.2 + progress * (endPoint.2 - start.2))

/-- The function `moveVehicle` (lines 67-107) of the render `cl`.  The result
is `none` when `start` or `end` is not a pair of numbers: what Leaflet and
the arithmetic do with such values is not modelled. -/
def moveVehicle (distanceTo : ℚ × ℚ → ℚ × ℚ → ℚ) (cl : Closure) (st : State) : Option State :=
  if cl.routeCoords.length = 0 ∨ cl.isMoving = true then some st
  else
    let start := cl.routeCoords.getD st.routeIndex .undefined
    let endPoint := cl.routeCoords.getD (st.routeIndex + 1) .undefined
    if endPoint.falsy = true then
      some { st with isMoving := false, frame := none }
    else
      match latLng start, latLng endPoint with
      | some a, some b =>
        let distance := distanceTo a b
        let duration := (distance / speed) * 10
        some { st with frame := some { closure := cl, start := a, endPoint := b,
                                       duration := duration, startTime := none } }
      | _, _ => none

/-- The callback `animate` (lines 85-103) run with a timestamp: the pending
frame fires.  With no frame pending nothing runs.  A zero `duration` makes
`progress` NaN or an infinity: `progress < 1` is then false unless the elapsed
time is negative, where the position would not be a number (`none`). -/
def animate (distanceTo : ℚ × ℚ → ℚ × ℚ → ℚ) (timestamp : ℚ) (st : State) : Option State :=
  match st.frame with
  | none => some st
  | some f =>
    let startTime : ℚ :=
      match f.startTime with
      | none => timestamp
      | some s => if s = 0 then timestamp else s
    let elapsed := timestamp - startTime
    if f.duration = 0 then
      if elapsed < 0 then none
      else moveVehicle distanceTo f.closure { st with routeIndex := st.routeIndex + 1, frame := none }
    else
      let progress := elapsed / f.duration
      if progress < 1 then
        some { st with vehiclePos := .point (interpolate f.start f.endPoint progress),
                       frame := some { f with startTime := some startTime } }
      else
        moveVehicle distanceTo f.closure { st with routeIndex := st.routeIndex + 1, frame := none }

/-- The function `toggleMovement` (lines 117-130) of the render `cl`: the
updater passed to `setIsMoving` runs on the current flag `prev`, and its
return value `!prev` is the flag afterwards; a `setIsMoving(false)` that
`moveVehicle` issues while the updater runs comes before that result. -/
def toggleMovement (distanceTo : ℚ × ℚ → ℚ × ℚ → ℚ) (cl : Closure) (st : State) : Option State :=
  let prev := st.isMoving
  if prev = false then
    match moveVehicle distanceTo cl { st with routeIndex := 0 } with
    | none => none
    | some s => some { s with isMoving := !prev }
  else
    some { st with frame := none,
                   vehiclePos := cl.routeCoords.getD (cl.routeCoords.length - 1) .undefined,
                   isMoving := !prev }

/-- A click on the start/stop button: `toggleMovement` of the latest render. -/
def clickToggle (distanceTo : ℚ × ℚ → ℚ × ℚ → ℚ) (st : State) : Option State :=
  toggleMovement distanceTo st.render st

/-- Delivery of animation frames with the given timestamps, one after the
other. -/
def runFrames (distanceTo : ℚ × ℚ → ℚ × ℚ → ℚ) : List ℚ → State → Option State
  | [], st => some st
  | t :: ts, st =>
    match animate distanceTo t st with
    | none => none
    | some st1 => runFrames distanceTo ts st1

/-! ## Concrete data used by the closed examples -/

/-- Decimal text of the numbers of the first configured route, as JavaScript
prints them; any other number is printed as `?`. -/
def showConfigured (q : ℚ) : String :=
  if q = 25.4358 then "25.4358"
  else if q = 81.8463 then "81.8463"
  else if q = 25.555 then "25.555"
  else if q = 81.9863 then "81.9863"
  else "?"

/-- A response body whose first feature has the given geometry coordinates. -/
def bodyWith (coordinates : JsVal) : JsVal :=
  .obj [("type", .str "FeatureCollection"),
        ("features", .arr [.obj [("type", .str "Feature"),
                                 ("geometry", .obj [("coordinates", coordinates),
                                                    ("type", .str "LineString")])]])]

/-- A geometry entry `[lng, lat]` as the directions service sends it. -/
def lngLatEntry (p : ℚ × ℚ) : JsVal := .arr [.num p.1, .num p.2]

/-- A stub of Leaflet's distance: every segment is 50 metres long. -/
def fiftyMetres (_a _b : ℚ × ℚ) : ℚ := 50

/-- The waypoints strictly between the first and the last one, in route
order: the intermediate waypoints the specification speaks of. -/
def intermediateWaypoints (waypoints : List (ℚ × ℚ)) : List (ℚ × ℚ) :=
  waypoints.tail.dropLast

/-- The vehicle half way along the fetched geometry of the first route: the
moving flag is set and a frame over that geometry is pending. -/
def movingOnFirstRoute : State :=
  { selectedRoute := .route { waypoints := [(25.4358, 81.8463), (25.555, 81.9863)] },
    routeCoords := [JsVal.point (25.4358, 81.8463), JsVal.point (25.555, 81.9863)],
    vehiclePos := JsVal.point (25.4954, 81.9163),
    isMoving := true,
    routeIndex := 0,
    frame := some { closure := { routeCoords := [JsVal.point (25.4358, 81.8463),
                                                  JsVal.point (25.555, 81.9863)],
                                 isMoving := false },
                    start := (25.4358, 81.8463), endPoint := (25.555, 81.9863),
                    duration := 100, startTime := some 1000 } }

/-- The state after the first route was selected and its two-point geometry
fetched: nothing moves yet. -/
def firstRouteLoaded : State :=
  { selectedRoute := .route { waypoints := [(25.4358, 81.8463), (25.555, 81.9863)] },
    routeCoords := [JsVal.point (25.4358, 81.8463), JsVal.point (25.555, 81.9863)],
    vehiclePos := JsVal.point (25.4358, 81.8463),
    isMoving := false,
    routeIndex := 0,
    frame := none }

/-- The state of the freshly mounted component after a fetch stored the
geometry `pts`: `vehiclePos` is its first point and nothing moves. -/
def loadedGeometry (pts : List (ℚ × ℚ)) : State :=
  { State.initial with routeCoords := pts.map JsVal.point,
                       vehiclePos := (pts.map JsVal.point).getD 0 .undefined }

/-- The invariant of the animation over the geometry `coords`: the segment
index is a position of `coords`, and a pending frame belongs to a closure
over `coords`, animates the segment from element `routeIndex` to element
`routeIndex + 1`, both of which exist, and has no start time yet when its
duration is zero. -/
def SegmentInvariant (coords : List JsVal) (s : State) : Prop :=
  s.routeIndex < coords.length ∧
  ∀ f, s.frame = some f →
    f.closure.routeCoords = coords ∧ f.closure.isMoving = false
      ∧ s.routeIndex + 1 < coords.length
      ∧ latLng (coords.getD s.routeIndex .undefined) = some f.start
      ∧ latLng (coords.getD (s.routeIndex + 1) .undefined) = some f.endPoint
      ∧ (f.duration = 0 → f.startTime = none)

/-! ## Lemmas on the value helpers -/

theorem mapItems_swapCoord_lngLatEntry (G : List (ℚ × ℚ)) :
    mapItems swapCoord (G.map lngLatEntry) = .ok (G.map (fun p => JsVal.point (p.2, p.1))) := by
  induction G with
  | nil => rfl
  | cons p rest ih =>
    simp only [List.map_cons, mapItems, ih]
    rfl

theorem requestUrl_isOk (apiKey : String) (fmt : ℚ → String) (waypoints : List (ℚ × ℚ))
    (h : waypoints ≠ []) : ∃ url, requestUrl apiKey fmt waypoints = .ok url := by
  have h0 : 0 < waypoints.length := List.length_pos.mpr h
  have h1 : waypoints.length - 1 < waypoints.length := by omega
  unfold requestUrl
  rw [List.getElem?_eq_getElem h0, List.getElem?_eq_getElem h1]
  exact ⟨_, rfl⟩

/-! ## Route fetch adapter: success -/

/-- C1: for a route of at least two waypoints and a directions service that
answers the request with geometry `G` (a list of `[lng, lat]` pairs),
`fetchRoute` stores as `routeCoords` the list of the same length and order
whose `i`-th element is `G[i]` with its two components swapped. -/
theorem fetchRoute_stores_swapped_geometry (apiKey : String) (fmt : ℚ → String)
    (get : String → HttpResult) (waypoints : List (ℚ × ℚ)) (st : State) (data : JsVal)
    (G : List (ℚ × ℚ))
    (hlen : 2 ≤ waypoints.length)
    (hget : ∀ url, requestUrl apiKey fmt waypoints = .ok url → get url = .response data)
    (hgeo : geometryCoordinates data = .ok (.arr (G.map lngLatEntry))) :
    (fetchRoute apiKey fmt get waypoints st).state.routeCoords
        = G.map (fun p => JsVal.point (p.2, p.1))
      ∧ (fetchRoute apiKey fmt get waypoints st).state.routeCoords.length = G.length
      ∧ ∀ (i : Nat) (h : i < G.length),
          (fetchRoute apiKey fmt get waypoints st).state.routeCoords[i]?
            = some (JsVal.point ((G.get ⟨i, h⟩).2, (G.get ⟨i, h⟩).1)) := by
  have hne : waypoints ≠ [] := by
    intro h
    simp [h] at hlen
  obtain ⟨url, hurl⟩ := requestUrl_isOk apiKey fmt waypoints hne
  have hcoords : (fetchRoute apiKey fmt get waypoints st).state.routeCoords
      = G.map (fun p => JsVal.point (p.2, p.1)) := by
    simp only [fetchRoute, hurl, hget url hurl, extractCoords, hgeo, JsVal.map,
      mapItems_swapCoord_lngLatEntry]
  refine ⟨hcoords, ?_, ?_⟩
  · rw [hcoords, List.length_map]
  · intro i h
    rw [hcoords, List.getElem?_map, List.getElem?_eq_getElem h]
    rfl

theorem fetchRoute_stores_swapped_geometry_witness :
    (fetchRoute "key" showConfigured
        (fun _ => .response (bodyWith (.arr ([(81.8463, 25.4358), (81.9863, 25.555)].map lngLatEntry))))
        [(25.4358, 81.8463), (25.555, 81.9863)] State.initial).state.routeCoords
      = [JsVal.point (25.4358, 81.8463), JsVal.point (25.555, 81.9863)] :=
  (fetchRoute_stores_swapped_geometry "key" showConfigured
    (fun _ => .response (bodyWith (.arr ([(81.8463, 25.4358), (81.9863, 25.555)].map lngLatEntry))))
    [(25.4358, 81.8463), (25.555, 81.9863)] State.initial
    (bodyWith (.arr ([(81.8463, 25.4358), (81.9863, 25.555)].map lngLatEntry)))
    [(81.8463, 25.4358), (81.9863, 25.555)]
    (by decide) (fun _ _ => rfl) (by rfl)).1

/-! ## Playback controller -/

/-- C2: in every state in which the vehicle is moving, whatever the segment
index and the pending frame, with a non-empty `routeCoords`, the stop branch
of `toggleMovement` cancels the pending frame, sets `vehiclePos` to the last
element of `routeCoords` and sets the moving flag to false. -/
theorem toggleMovement_stop_places_last (distanceTo : ℚ × ℚ → ℚ × ℚ → ℚ) (st : State)
    (hne : st.routeCoords ≠ []) (hmoving : st.isMoving = true) :
    clickToggle distanceTo st
      = some { st with frame := none, vehiclePos := st.routeCoords.getLast hne,
                       isMoving := false } := by
  have hlast : st.routeCoords.getD (st.routeCoords.length - 1) JsVal.undefined
      = st.routeCoords.getLast hne := by
    have h1 : st.routeCoords.length - 1 < st.routeCoords.length := by
      have := List.length_pos.mpr hne
      omega
    rw [List.getD_eq_getElem _ _ h1, List.getLast_eq_getElem]
  simp only [clickToggle, toggleMovement, State.render, hmoving, hlast]
  simp

theorem toggleMovement_stop_places_last_witness :
    clickToggle fiftyMetres
        { State.initial with
            routeCoords := [JsVal.point (25.4358, 81.8463), JsVal.point (25.555, 81.9863)],
            vehiclePos := JsVal.point (25.5, 81.9), isMoving := true,
            frame := some { closure := ⟨[JsVal.point (25.4358, 81.8463),
                                         JsVal.point (25.555, 81.9863)], false⟩,
                            start := (25.4358, 81.8463), endPoint := (25.555, 81.9863),
                            duration := 100, startTime := some 1000 } }
      = some { State.initial with
            routeCoords := [JsVal.point (25.4358, 81.8463), JsVal.point (25.555, 81.9863)],
            vehiclePos := JsVal.point (25.555, 81.9863), isMoving := false, frame := none } :=
  toggleMovement_stop_places_last fiftyMetres _ (by simp) rfl

/-- C4 (evaluation of the code): a click on the start button of the freshly
mounted component, whose `routeCoords` is empty, schedules no frame and leaves
`vehiclePos` as it was, but the moving flag is true afterwards. -/
theorem clickToggle_initial_sets_moving (distanceTo : ℚ × ℚ → ℚ × ℚ → ℚ) :
    clickToggle distanceTo State.initial = some { State.initial with isMoving := true }
      ∧ ({ State.initial with isMoving := true } : State).isMoving ≠ State.initial.isMoving := by
  constructor
  · rfl
  · simp [State.initial]

/-- C9 (evaluation of the code): `handleRouteChange` on the placeholder
option, and on any index beyond the configured routes, requests nothing and
leaves `routeCoords`, `vehiclePos` and the playback fields as they were, but
it sets `selectedRoute` to `undefined` and a TypeError escapes the handler. -/
theorem handleRouteChange_placeholder_throws (apiKey : String) (fmt : ℚ → String)
    (get : String → HttpResult) (st : State) :
    handleRouteChange apiKey fmt get .placeholder st
        = { state := { st with selectedRoute := .undefined }, requests := [], logged := [],
            thrown := some .typeError }
      ∧ ∀ i, routes.length ≤ i →
          handleRouteChange apiKey fmt get (.index i) st
            = { state := { st with selectedRoute := .undefined }, requests := [], logged := [],
                thrown := some .typeError } := by
  refine ⟨rfl, ?_⟩
  intro i hi
  have hnone : routes[i]? = none := List.getElem?_eq_none hi
  simp only [handleRouteChange, lookupRoute, hnone]

/-! ## Coordinate interpolation -/

/-- C10: for all points `a`, `b` and every progress `t` with `0 ≤ t ≤ 1`, the
position written by the animation step is
`(a.lat + t * (b.lat - a.lat), a.lng + t * (b.lng - a.lng))`; it equals the
convex combination `(1 - t) * a + t * b`, each of its coordinates lies between
the corresponding coordinates of `a` and `b`, and at `t = 0` it is `a`.  The
step writes this position whenever the progress of a pending frame is below 1. -/
theorem interpolate_on_segment (a b : ℚ × ℚ) (t : ℚ) (h0 : 0 ≤ t) (h1 : t ≤ 1) :
    interpolate a b t = (a.1 + t * (b.1 - a.1), a.2 + t * (b.2 - a.2))
      ∧ interpolate a b t = ((1 - t) * a.1 + t * b.1, (1 - t) * a.2 + t * b.2)
      ∧ (min a.1 b.1 ≤ (interpolate a b t).1 ∧ (interpolate a b t).1 ≤ max a.1 b.1)
      ∧ (min a.2 b.2 ≤ (interpolate a b t).2 ∧ (interpolate a b t).2 ≤ max a.2 b.2)
      ∧ interpolate a b 0 = a
      ∧ ∀ (distanceTo : ℚ × ℚ → ℚ × ℚ → ℚ) (st : State) (cl : Closure) (d s : ℚ),
          d ≠ 0 → s ≠ 0 → t < 1 →
          st.frame = some { closure := cl, start := a, endPoint := b, duration := d,
                            startTime := some s } →
          (animate distanceTo (s + t * d) st).map State.vehiclePos
            = some (JsVal.point (interpolate a b t)) := by
  have key : ∀ x y : ℚ, min x y ≤ x + t * (y - x) ∧ x + t * (y - x) ≤ max x y := by
    intro x y
    rcases le_total x y with hxy | hxy
    · rw [min_eq_left hxy, max_eq_right hxy]
      constructor <;> nlinarith
    · rw [min_eq_right hxy, max_eq_left hxy]
      constructor <;> nlinarith
  refine ⟨rfl, ?_, key a.1 b.1, key a.2 b.2, ?_, ?_⟩
  · simp only [interpolate, Prod.mk.injEq]
    constructor <;> ring
  · simp [interpolate]
  · intro distanceTo st cl d s hd hs ht hframe
    have hprog : (s + t * d - s) / d = t := by
      field_simp
    simp [animate, hframe, hd, hs, hprog, ht]

theorem interpolate_on_segment_witness :
    interpolate (25.4358, 81.8463) (25.555, 81.9863) (1 / 2)
      = ((1 - 1 / 2) * 25.4358 + (1 / 2) * 25.555, (1 - 1 / 2) * 81.8463 + (1 / 2) * 81.9863) :=
  (interpolate_on_segment (25.4358, 81.8463) (25.555, 81.9863) (1 / 2)
    (by norm_num) (by norm_num)).2.1

/-! ## Route fetch adapter: the request -/

theorem ne_nil_of_two_le_length {α : Type} {l : List α} (h : 2 ≤ l.length) : l ≠ [] := by
  intro hl
  simp [hl] at h

theorem eq_head_intermediate_getLast (l : List (ℚ × ℚ)) (h : 2 ≤ l.length) :
    l = l.head (ne_nil_of_two_le_length h)
          :: (intermediateWaypoints l ++ [l.getLast (ne_nil_of_two_le_length h)]) := by
  match l, h with
  | a :: b :: rest, _ =>
    simp only [intermediateWaypoints, List.head_cons, List.tail_cons, List.cons.injEq, true_and]
    rw [List.getLast_cons (List.cons_ne_nil b rest)]
    exact (List.dropLast_append_getLast (List.cons_ne_nil b rest)).symm

/-- C8 (counterexample): for the first configured route, which has two
waypoints and so no intermediate one, the `waypoints` parameter of the request
is not empty: it lists both end points. -/
theorem requestUrl_two_waypoints_lists_both :
    requestUrl "key" showConfigured [(25.4358, 81.8463), (25.555, 81.9863)]
        = .ok "https://api.openrouteservice.org/v2/directions/driving-car?api_key=key&start=81.8463,25.4358&end=81.9863,25.555&waypoints=81.8463,25.4358|81.9863,25.555"
      ∧ intermediateWaypoints [(25.4358, 81.8463), (25.555, 81.9863)] = []
      ∧ waypointsParam showConfigured [(25.4358, 81.8463), (25.555, 81.9863)]
          ≠ join "|" ((intermediateWaypoints [(25.4358, 81.8463), (25.555, 81.9863)]).map
              (lngLat showConfigured)) := by
  have e1 : showConfigured 25.4358 = "25.4358" := by norm_num [showConfigured]
  have e2 : showConfigured 81.8463 = "81.8463" := by norm_num [showConfigured]
  have e3 : showConfigured 25.555 = "25.555" := by norm_num [showConfigured]
  have e4 : showConfigured 81.9863 = "81.9863" := by norm_num [showConfigured]
  refine ⟨?_, rfl, ?_⟩
  · simp only [requestUrl, waypointsParam, List.map, join, lngLat, List.length_cons,
      List.length_nil, List.getElem?_cons_zero, List.getElem?_cons_succ, e1, e2, e3, e4]
    rfl
  · simp only [waypointsParam, intermediateWaypoints, List.map, join, lngLat, List.tail_cons,
      List.dropLast_single, e1, e2, e3, e4]
    decide

/-- C8 (amended): for every route of at least two waypoints the request URL
has `start` = `lng,lat` of the first waypoint, `end` = `lng,lat` of the last
waypoint, and a `waypoints` parameter that lists all waypoints of the route in
route order, each as `lng,lat`, joined by `|`: the first waypoint, then the
intermediate ones, then the last. -/
theorem requestUrl_lists_all_waypoints (apiKey : String) (fmt : ℚ → String)
    (waypoints : List (ℚ × ℚ)) (h : 2 ≤ waypoints.length) :
    requestUrl apiKey fmt waypoints
        = .ok ("https://api.openrouteservice.org/v2/directions/driving-car?api_key=" ++ apiKey
            ++ "&start=" ++ lngLat fmt (waypoints.head (ne_nil_of_two_le_length h))
            ++ "&end=" ++ lngLat fmt (waypoints.getLast (ne_nil_of_two_le_length h))
            ++ "&waypoints=" ++ waypointsParam fmt waypoints)
      ∧ waypointsParam fmt waypoints
        = join "|" (lngLat fmt (waypoints.head (ne_nil_of_two_le_length h))
            :: ((intermediateWaypoints waypoints).map (lngLat fmt)
                ++ [lngLat fmt (waypoints.getLast (ne_nil_of_two_le_length h))])) := by
  have hne := ne_nil_of_two_le_length h
  have h0 : 0 < waypoints.length := by omega
  have h1 : waypoints.length - 1 < waypoints.length := by omega
  constructor
  · unfold requestUrl
    rw [List.getElem?_eq_getElem h0, List.getElem?_eq_getElem h1]
    have hhead : waypoints[0] = waypoints.head hne := by
      rw [List.head_eq_getElem]
    have hlast : waypoints[waypoints.length - 1] = waypoints.getLast hne := by
      rw [List.getLast_eq_getElem]
    simp only [hhead, hlast, lngLat, String.append_assoc]
  · have hsplit := eq_head_intermediate_getLast waypoints h
    have hmap : waypoints.map (lngLat fmt)
        = lngLat fmt (waypoints.head hne)
            :: ((intermediateWaypoints waypoints).map (lngLat fmt)
                ++ [lngLat fmt (waypoints.getLast hne)]) := by
      conv_lhs => rw [hsplit]
      simp
    unfold waypointsParam
    rw [hmap]

theorem requestUrl_lists_all_waypoints_witness :
    waypointsParam showConfigured [(25.4358, 81.8463), (25.555, 81.9863)]
      = join "|" (lngLat showConfigured (25.4358, 81.8463)
          :: ((intermediateWaypoints [(25.4358, 81.8463), (25.555, 81.9863)]).map
                (lngLat showConfigured)
              ++ [lngLat showConfigured (25.555, 81.9863)])) :=
  (requestUrl_lists_all_waypoints "key" showConfigured
    [(25.4358, 81.8463), (25.555, 81.9863)] (by decide)).2

/-! ## Route fetch adapter: failure -/

theorem swapCoord_error_of_nullish (e : JsVal) (h : e = .null ∨ e = .undefined) :
    swapCoord e = .error .typeError := by
  rcases h with h | h <;> subst h <;> rfl

theorem swapCoord_isOk_of_not_nullish (e : JsVal) (h1 : e ≠ .null) (h2 : e ≠ .undefined) :
    ∃ y, swapCoord e = .ok y := by
  cases e with
  | undefined => exact absurd rfl h2
  | null => exact absurd rfl h1
  | bool b => exact ⟨_, rfl⟩
  | num q => exact ⟨_, rfl⟩
  | str s => exact ⟨_, rfl⟩
  | arr items => exact ⟨_, rfl⟩
  | obj fields => exact ⟨_, rfl⟩

theorem mapItems_error_of_mem (f : JsVal → Except JsError JsVal) (entries : List JsVal)
    (h : ∃ e ∈ entries, ∃ err, f e = .error err) : ∃ err, mapItems f entries = .error err := by
  induction entries with
  | nil => simp at h
  | cons c cs ih =>
    unfold mapItems
    cases hc : f c with
    | error err => exact ⟨err, rfl⟩
    | ok y =>
      obtain ⟨e, he, err, herr⟩ := h
      rcases List.mem_cons.mp he with hec | hecs
      · subst hec
        rw [hc] at herr
        cases herr
      · obtain ⟨err2, h2⟩ := ih ⟨e, hecs, err, herr⟩
        simp only [h2]
        exact ⟨err2, rfl⟩

theorem mapItems_isOk_of_forall (f : JsVal → Except JsError JsVal) (entries : List JsVal)
    (h : ∀ e ∈ entries, ∃ y, f e = .ok y) : ∃ ys, mapItems f entries = .ok ys := by
  induction entries with
  | nil => exact ⟨[], rfl⟩
  | cons c cs ih =>
    obtain ⟨y, hy⟩ := h c (List.mem_cons_self c cs)
    obtain ⟨ys, hys⟩ := ih (fun e he => h e (List.mem_cons_of_mem c he))
    exact ⟨y :: ys, by simp only [mapItems, hy, hys]⟩

theorem fetchRoute_state_cases (apiKey : String) (fmt : ℚ → String) (get : String → HttpResult)
    (waypoints : List (ℚ × ℚ)) (st : State) :
    (fetchRoute apiKey fmt get waypoints st).state = st
      ∨ ∃ coords, (fetchRoute apiKey fmt get waypoints st).state
          = { st with routeCoords := coords, vehiclePos := coords.getD 0 .undefined } := by
  unfold fetchRoute
  split
  · exact Or.inl rfl
  · split
    · exact Or.inl rfl
    · split
      · exact Or.inl rfl
      · exact Or.inr ⟨_, rfl⟩

theorem fetchRoute_thrown (apiKey : String) (fmt : ℚ → String) (get : String → HttpResult)
    (waypoints : List (ℚ × ℚ)) (st : State) :
    (fetchRoute apiKey fmt get waypoints st).thrown = none := by
  unfold fetchRoute
  split
  · rfl
  · split
    · rfl
    · split <;> rfl

/-- C5 (counterexample): a response whose geometry holds the malformed
coordinate entry `[81.8463]` (one number instead of a pair) is not a failure
for `fetchRoute`: both `routeCoords` and `vehiclePos` are overwritten, with
`[undefined, 81.8463]`. -/
theorem fetchRoute_stores_malformed_entry :
    (fetchRoute "key" showConfigured
        (fun _ => .response (bodyWith (.arr [.arr [.num 81.8463]])))
        [(25.4358, 81.8463), (25.555, 81.9863)] State.initial).state.routeCoords
        = [.arr [.undefined, .num 81.8463]]
      ∧ (fetchRoute "key" showConfigured
        (fun _ => .response (bodyWith (.arr [.arr [.num 81.8463]])))
        [(25.4358, 81.8463), (25.555, 81.9863)] State.initial).state.vehiclePos
        = .arr [.undefined, .num 81.8463]
      ∧ State.initial.routeCoords = []
      ∧ State.initial.vehiclePos = .null := by
  refine ⟨rfl, rfl, rfl, rfl⟩

/-- C5 (amended): `fetchRoute` raises nothing to its caller, and it either
leaves the state as it was or overwrites both `routeCoords` and `vehiclePos`
(with the swapped entries and the first of them).  It leaves the state as it
was when the HTTP call rejects, when `features[0].geometry.coordinates`
cannot be read or is not an array, and when a coordinate entry is `null` or
`undefined`.  A geometry array without such an entry is stored, whatever the
shape of its entries. -/
theorem fetchRoute_failure_leaves_state (apiKey : String) (fmt : ℚ → String)
    (get : String → HttpResult) (waypoints : List (ℚ × ℚ)) (st : State) :
    (fetchRoute apiKey fmt get waypoints st).thrown = none
      ∧ ((fetchRoute apiKey fmt get waypoints st).state = st
          ∨ ∃ coords, (fetchRoute apiKey fmt get waypoints st).state
              = { st with routeCoords := coords, vehiclePos := coords.getD 0 .undefined })
      ∧ (∀ url, requestUrl apiKey fmt waypoints = .ok url → get url = .rejected →
          (fetchRoute apiKey fmt get waypoints st).state = st)
      ∧ (∀ url data, requestUrl apiKey fmt waypoints = .ok url → get url = .response data →
          (∀ entries, geometryCoordinates data ≠ .ok (.arr entries)) →
          (fetchRoute apiKey fmt get waypoints st).state = st)
      ∧ (∀ url data entries, requestUrl apiKey fmt waypoints = .ok url →
          get url = .response data → geometryCoordinates data = .ok (.arr entries) →
          (∃ e ∈ entries, e = .null ∨ e = .undefined) →
          (fetchRoute apiKey fmt get waypoints st).state = st)
      ∧ (∀ url data entries, requestUrl apiKey fmt waypoints = .ok url →
          get url = .response data → geometryCoordinates data = .ok (.arr entries) →
          (∀ e ∈ entries, e ≠ .null ∧ e ≠ .undefined) →
          ∃ coords, mapItems swapCoord entries = .ok coords
            ∧ coords.length = entries.length
            ∧ (fetchRoute apiKey fmt get waypoints st).state
                = { st with routeCoords := coords, vehiclePos := coords.getD 0 .undefined }) := by
  refine ⟨fetchRoute_thrown apiKey fmt get waypoints st,
    fetchRoute_state_cases apiKey fmt get waypoints st, ?_, ?_, ?_, ?_⟩
  · intro url hurl hget
    simp only [fetchRoute, hurl, hget]
  · intro url data hurl hget hgeo
    simp only [fetchRoute, hurl, hget, extractCoords]
    cases hg : geometryCoordinates data with
    | error e => rfl
    | ok v =>
      cases v with
      | arr entries => exact absurd hg (hgeo entries)
      | undefined => rfl
      | null => rfl
      | bool b => rfl
      | num q => rfl
      | str s => rfl
      | obj fields => rfl
  · intro url data entries hurl hget hgeo hbad
    obtain ⟨e, he, hnull⟩ := hbad
    obtain ⟨err, herr⟩ := mapItems_error_of_mem swapCoord entries
      ⟨e, he, .typeError, swapCoord_error_of_nullish e hnull⟩
    simp only [fetchRoute, hurl, hget, extractCoords, hgeo, JsVal.map, herr]
  · intro url data entries hurl hget hgeo hgood
    obtain ⟨coords, hcoords⟩ := mapItems_isOk_of_forall swapCoord entries
      (fun e he => swapCoord_isOk_of_not_nullish e (hgood e he).1 (hgood e he).2)
    refine ⟨coords, hcoords, ?_, ?_⟩
    · clear hgeo hgood
      induction entries generalizing coords with
      | nil =>
        simp only [mapItems] at hcoords
        cases hcoords
        rfl
      | cons c cs ih =>
        unfold mapItems at hcoords
        cases hc : swapCoord c with
        | error err => simp [hc] at hcoords
        | ok y =>
          cases hcs : mapItems swapCoord cs with
          | error err => simp [hc, hcs] at hcoords
          | ok ys =>
            simp only [hc, hcs] at hcoords
            cases hcoords
            simp [ih ys hcs]
    · simp only [fetchRoute, hurl, hget, extractCoords, hgeo, JsVal.map, hcoords]

/-! ## Route selection -/

/-- C7 (counterexample): selecting the second route while the vehicle moves
along the first one, with a successful fetch, stores the new geometry but
leaves the moving flag true and the frame over the previous geometry
pending.  The prior state is the one the start command and frames at 1000 and
1050 ms lead to from the loaded first route. -/
theorem handleRouteChange_keeps_moving :
    (handleRouteChange "key" showConfigured
        (fun _ => .response (bodyWith (.arr ([(81.8463, 25.4358), (81.9963, 25.565)].map lngLatEntry))))
        (.index 1) movingOnFirstRoute).state.isMoving = true
      ∧ ((handleRouteChange "key" showConfigured
        (fun _ => .response (bodyWith (.arr ([(81.8463, 25.4358), (81.9963, 25.565)].map lngLatEntry))))
        (.index 1) movingOnFirstRoute).state.frame.map (fun f => f.closure.routeCoords))
          = some [JsVal.point (25.4358, 81.8463), JsVal.point (25.555, 81.9863)]
      ∧ (handleRouteChange "key" showConfigured
        (fun _ => .response (bodyWith (.arr ([(81.8463, 25.4358), (81.9963, 25.565)].map lngLatEntry))))
        (.index 1) movingOnFirstRoute).state.routeCoords
          = [JsVal.point (25.4358, 81.8463), JsVal.point (25.565, 81.9963)]
      ∧ (handleRouteChange "key" showConfigured
        (fun _ => .response (bodyWith (.arr ([(81.8463, 25.4358), (81.9963, 25.565)].map lngLatEntry))))
        (.index 1) movingOnFirstRoute).thrown = none
      ∧ (clickToggle fiftyMetres firstRouteLoaded).bind (runFrames fiftyMetres [1000, 1050])
          = some movingOnFirstRoute := by
  refine ⟨rfl, rfl, rfl, rfl, ?_⟩
  have hstart : clickToggle fiftyMetres firstRouteLoaded
      = some { firstRouteLoaded with
          isMoving := true,
          frame := some { closure := firstRouteLoaded.render, start := (25.4358, 81.8463),
                          endPoint := (25.555, 81.9863), duration := 100,
                          startTime := none } } := by
    simp [clickToggle, toggleMovement, moveVehicle, firstRouteLoaded, State.render,
      JsVal.point, JsVal.falsy, latLng, fiftyMetres, speed]
    norm_num
  rw [hstart]
  simp [runFrames, animate, firstRouteLoaded, movingOnFirstRoute, State.render, interpolate,
    JsVal.point]
  norm_num

theorem routes_waypoints_ne_nil (i : Nat) (r : Route) (h : routes[i]? = some r) :
    r.waypoints ≠ [] := by
  match i with
  | 0 =>
    simp only [routes, List.getElem?_cons_zero, Option.some.injEq] at h
    subst h
    simp
  | 1 =>
    simp only [routes, List.getElem?_cons_succ, List.getElem?_cons_zero, Option.some.injEq] at h
    subst h
    simp
  | n + 2 => simp [routes] at h

/-- C7 (amended): for every valid route index and every prior state, a route
selection whose fetch succeeds requests the route, raises nothing, stores the
route as `selectedRoute`, the swapped geometry as `routeCoords` and its first
element as `vehiclePos`, and leaves the moving flag, the segment index and the
pending frame as they were; so a state that is not moving and has no frame
pending stays so. -/
theorem handleRouteChange_success (apiKey : String) (fmt : ℚ → String)
    (get : String → HttpResult) (i : Nat) (st : State) (data : JsVal) (coords : List JsVal)
    (hi : i < routes.length)
    (hget : ∀ r url, routes[i]? = some r → requestUrl apiKey fmt r.waypoints = .ok url →
      get url = .response data)
    (hcoords : extractCoords data = .ok coords) :
    ∃ r url, routes[i]? = some r ∧ requestUrl apiKey fmt r.waypoints = .ok url
      ∧ handleRouteChange apiKey fmt get (.index i) st
        = { state := { st with selectedRoute := .route r, routeCoords := coords,
                               vehiclePos := coords.getD 0 .undefined },
            requests := [url], logged := [], thrown := none }
      ∧ (handleRouteChange apiKey fmt get (.index i) st).state.isMoving = st.isMoving
      ∧ (handleRouteChange apiKey fmt get (.index i) st).state.routeIndex = st.routeIndex
      ∧ (handleRouteChange apiKey fmt get (.index i) st).state.frame = st.frame := by
  have hr : routes[i]? = some (routes.get ⟨i, hi⟩) := List.getElem?_eq_getElem hi
  obtain ⟨url, hurl⟩ := requestUrl_isOk apiKey fmt (routes.get ⟨i, hi⟩).waypoints
    (routes_waypoints_ne_nil i _ hr)
  have hresp := hget _ url hr hurl
  have heff : handleRouteChange apiKey fmt get (.index i) st
      = { state := { st with selectedRoute := .route (routes.get ⟨i, hi⟩), routeCoords := coords,
                             vehiclePos := coords.getD 0 .undefined },
          requests := [url], logged := [], thrown := none } := by
    simp only [handleRouteChange, lookupRoute, hr, fetchRoute, hurl, hresp, hcoords]
  refine ⟨routes.get ⟨i, hi⟩, url, hr, hurl, heff, ?_, ?_, ?_⟩ <;> rw [heff]

theorem handleRouteChange_success_witness :
    (handleRouteChange "key" showConfigured
        (fun _ => .response (bodyWith (.arr ([(81.8463, 25.4358), (81.9863, 25.555)].map lngLatEntry))))
        (.index 0) State.initial).state.isMoving = State.initial.isMoving :=
  (handleRouteChange_success "key" showConfigured
    (fun _ => .response (bodyWith (.arr ([(81.8463, 25.4358), (81.9863, 25.555)].map lngLatEntry))))
    0 State.initial
    (bodyWith (.arr ([(81.8463, 25.4358), (81.9863, 25.555)].map lngLatEntry)))
    [JsVal.point (25.4358, 81.8463), JsVal.point (25.555, 81.9863)]
    (by decide) (fun _ _ _ _ => rfl) (by rfl)).elim
    (fun _ h => h.elim (fun _ h2 => h2.2.2.2.1))

/-! ## Animation driver: the segment invariant -/

theorem latLng_eq_some (v : JsVal) (p : ℚ × ℚ) (h : latLng v = some p) : v = JsVal.point p := by
  unfold latLng at h
  split at h
  · cases h
    rfl
  · cases h

theorem getD_point (pts : List (ℚ × ℚ)) (i : Nat) (h : i < pts.length) :
    (pts.map JsVal.point).getD i .undefined = JsVal.point (pts.get ⟨i, h⟩) := by
  have h2 : i < (pts.map JsVal.point).length := by
    rw [List.length_map]
    exact h
  rw [List.getD_eq_getElem _ _ h2, List.getElem_map]
  rfl

theorem getD_beyond (coords : List JsVal) (i : Nat) (h : coords.length ≤ i) :
    coords.getD i .undefined = .undefined :=
  List.getD_eq_default _ _ h

theorem lt_length_of_not_falsy (coords : List JsVal) (i : Nat)
    (h : (coords.getD i .undefined).falsy ≠ true) : i < coords.length := by
  by_contra hlt
  apply h
  rw [getD_beyond coords i (Nat.le_of_not_lt hlt)]
  rfl

theorem moveVehicle_preserves (distanceTo : ℚ × ℚ → ℚ × ℚ → ℚ) (coords : List JsVal)
    (cl : Closure) (st s : State) (hcl : cl.routeCoords = coords) (hmov : cl.isMoving = false)
    (hidx : st.routeIndex < coords.length) (hs : moveVehicle distanceTo cl st = some s) :
    SegmentInvariant coords s ∧ s.routeCoords = st.routeCoords
      ∧ s.routeIndex = st.routeIndex := by
  have hlen : ¬ (cl.routeCoords.length = 0 ∨ cl.isMoving = true) := by
    rw [hcl, hmov]
    intro h
    rcases h with h | h
    · omega
    · cases h
  simp only [moveVehicle, if_neg hlen] at hs
  split at hs
  · cases hs
    exact ⟨⟨hidx, fun f hf => by cases hf⟩, rfl, rfl⟩
  · rename_i hfalsy
    split at hs
    · rename_i a b ha hb
      cases hs
      refine ⟨⟨hidx, ?_⟩, rfl, rfl⟩
      intro f hf
      cases hf
      rw [hcl] at hfalsy ha hb
      exact ⟨hcl, hmov, lt_length_of_not_falsy coords _ hfalsy, ha, hb, fun _ => rfl⟩
    · cases hs

theorem moveVehicle_isSome_of_points (distanceTo : ℚ × ℚ → ℚ × ℚ → ℚ) (pts : List (ℚ × ℚ))
    (cl : Closure) (st : State) (hcl : cl.routeCoords = pts.map JsVal.point)
    (hidx : st.routeIndex < pts.length) : ∃ s, moveVehicle distanceTo cl st = some s := by
  unfold moveVehicle
  split
  · exact ⟨_, rfl⟩
  · simp only [hcl, getD_point pts st.routeIndex hidx]
    by_cases hnext : st.routeIndex + 1 < pts.length
    · rw [getD_point pts (st.routeIndex + 1) hnext]
      exact ⟨_, rfl⟩
    · rw [getD_beyond _ _ (by rw [List.length_map]; omega)]
      exact ⟨_, rfl⟩

theorem animate_preserves (distanceTo : ℚ × ℚ → ℚ × ℚ → ℚ) (coords : List JsVal)
    (timestamp : ℚ) (st s : State) (hinv : SegmentInvariant coords st)
    (hs : animate distanceTo timestamp st = some s) :
    SegmentInvariant coords s ∧ s.routeCoords = st.routeCoords := by
  unfold animate at hs
  split at hs
  · cases hs
    exact ⟨hinv, rfl⟩
  · rename_i f hf
    obtain ⟨hcl, hmov, hnext, hstart, hend, hdur⟩ := hinv.2 f hf
    simp only at hs
    split at hs
    · split at hs
      · cases hs
      · have h := moveVehicle_preserves distanceTo coords f.closure _ s hcl hmov hnext hs
        exact ⟨h.1, h.2.1⟩
    · rename_i hd
      split at hs
      · cases hs
        refine ⟨⟨hinv.1, ?_⟩, rfl⟩
        intro g hg
        cases hg
        exact ⟨hcl, hmov, hnext, hstart, hend, fun h0 => absurd h0 hd⟩
      · have h := moveVehicle_preserves distanceTo coords f.closure _ s hcl hmov hnext hs
        exact ⟨h.1, h.2.1⟩

theorem animate_isSome_of_points (distanceTo : ℚ × ℚ → ℚ × ℚ → ℚ) (pts : List (ℚ × ℚ))
    (timestamp : ℚ) (st : State) (hinv : SegmentInvariant (pts.map JsVal.point) st) :
    ∃ s, animate distanceTo timestamp st = some s := by
  unfold animate
  split
  · exact ⟨_, rfl⟩
  · rename_i f hf
    obtain ⟨hcl, _, hnext, _, _, hdur⟩ := hinv.2 f hf
    rw [List.length_map] at hnext
    simp only
    split
    · rename_i hd
      rw [hdur hd]
      simp only [sub_self, lt_self_iff_false, if_false]
      exact moveVehicle_isSome_of_points distanceTo pts f.closure _ hcl hnext
    · split
      · exact ⟨_, rfl⟩
      · exact moveVehicle_isSome_of_points distanceTo pts f.closure _ hcl hnext

theorem runFrames_preserves (distanceTo : ℚ × ℚ → ℚ × ℚ → ℚ) (coords : List JsVal)
    (ts : List ℚ) (st s : State) (hinv : SegmentInvariant coords st)
    (hs : runFrames distanceTo ts st = some s) :
    SegmentInvariant coords s ∧ s.routeCoords = st.routeCoords := by
  induction ts generalizing st with
  | nil =>
    simp only [runFrames, Option.some.injEq] at hs
    subst hs
    exact ⟨hinv, rfl⟩
  | cons t rest ih =>
    unfold runFrames at hs
    cases h1 : animate distanceTo t st with
    | none => simp [h1] at hs
    | some st1 =>
      simp only [h1] at hs
      have hstep := animate_preserves distanceTo coords t st st1 hinv h1
      have hrest := ih st1 hstep.1 hs
      exact ⟨hrest.1, hrest.2.trans hstep.2⟩

theorem runFrames_isSome_of_points (distanceTo : ℚ × ℚ → ℚ × ℚ → ℚ) (pts : List (ℚ × ℚ))
    (ts : List ℚ) (st : State) (hinv : SegmentInvariant (pts.map JsVal.point) st) :
    ∃ s, runFrames distanceTo ts st = some s := by
  induction ts generalizing st with
  | nil => exact ⟨st, rfl⟩
  | cons t rest ih =>
    obtain ⟨st1, h1⟩ := animate_isSome_of_points distanceTo pts t st hinv
    obtain ⟨s, hs⟩ := ih st1 (animate_preserves distanceTo _ t st st1 hinv h1).1
    exact ⟨s, by simp only [runFrames, h1, hs]⟩

theorem clickToggle_start_eq (distanceTo : ℚ × ℚ → ℚ × ℚ → ℚ) (st : State)
    (hidle : st.isMoving = false) :
    clickToggle distanceTo st
      = (moveVehicle distanceTo st.render { st with routeIndex := 0 }).map
          (fun s => { s with isMoving := true }) := by
  obtain ⟨sel, rc, vp, mv, ri, fr⟩ := st
  dsimp only at hidle
  subst hidle
  simp only [clickToggle, toggleMovement, if_true, Bool.not_false]
  cases moveVehicle distanceTo (State.render ⟨sel, rc, vp, false, ri, fr⟩) ⟨sel, rc, vp, false, 0, fr⟩
    <;> rfl

theorem clickToggle_start_preserves (distanceTo : ℚ × ℚ → ℚ × ℚ → ℚ) (st s : State)
    (hne : st.routeCoords ≠ []) (hidle : st.isMoving = false)
    (hs : clickToggle distanceTo st = some s) :
    SegmentInvariant st.routeCoords s ∧ s.routeCoords = st.routeCoords ∧ s.routeIndex = 0 := by
  rw [clickToggle_start_eq distanceTo st hidle] at hs
  cases hm : moveVehicle distanceTo st.render { st with routeIndex := 0 } with
  | none => simp [hm] at hs
  | some s1 =>
    simp only [hm, Option.map_some', Option.some.injEq] at hs
    have h := moveVehicle_preserves distanceTo st.routeCoords st.render _ s1 rfl hidle
      (List.length_pos.mpr hne) hm
    subst hs
    exact ⟨⟨h.1.1, h.1.2⟩, h.2.1, h.2.2⟩

theorem clickToggle_start_isSome_of_points (distanceTo : ℚ × ℚ → ℚ × ℚ → ℚ)
    (pts : List (ℚ × ℚ)) (st : State) (hne : pts ≠ [])
    (hcoords : st.routeCoords = pts.map JsVal.point) (hidle : st.isMoving = false) :
    ∃ s, clickToggle distanceTo st = some s := by
  obtain ⟨s1, h1⟩ := moveVehicle_isSome_of_points distanceTo pts st.render
    { st with routeIndex := 0 } hcoords (List.length_pos.mpr hne)
  rw [clickToggle_start_eq distanceTo st hidle, h1]
  exact ⟨_, rfl⟩

/-- C6: for every non-empty `routeCoords`, in every state reached from the
start command by animation frames, the segment index is below the length of
`routeCoords` (it is 0 right after the start command); whenever a frame is
pending, it belongs to a closure over the same `routeCoords`, element
`routeIndex + 1` exists, and the frame animates from element `routeIndex` to
element `routeIndex + 1`.  When `routeCoords` is a list of points, the start
command and every sequence of frames do reach such a state. -/
theorem segment_index_in_range (distanceTo : ℚ × ℚ → ℚ × ℚ → ℚ) (st : State) (ts : List ℚ)
    (hne : st.routeCoords ≠ []) (hidle : st.isMoving = false) :
    (∀ s1 s, clickToggle distanceTo st = some s1 → runFrames distanceTo ts s1 = some s →
      s1.routeIndex = 0
        ∧ s.routeCoords = st.routeCoords
        ∧ s.routeIndex < s.routeCoords.length
        ∧ ∀ f, s.frame = some f →
            f.closure.routeCoords = s.routeCoords
              ∧ s.routeIndex + 1 < s.routeCoords.length
              ∧ s.routeCoords[s.routeIndex]? = some (JsVal.point f.start)
              ∧ s.routeCoords[s.routeIndex + 1]? = some (JsVal.point f.endPoint))
      ∧ (∀ pts : List (ℚ × ℚ), st.routeCoords = pts.map JsVal.point →
          ∃ s1 s, clickToggle distanceTo st = some s1 ∧ runFrames distanceTo ts s1 = some s) := by
  constructor
  · intro s1 s h1 hs
    have hinv1 := clickToggle_start_preserves distanceTo st s1 hne hidle h1
    have hinv := runFrames_preserves distanceTo st.routeCoords ts s1 s hinv1.1 hs
    have hrc : s.routeCoords = st.routeCoords := hinv.2.trans hinv1.2.1
    refine ⟨hinv1.2.2, hrc, ?_, ?_⟩
    · rw [hrc]
      exact hinv.1.1
    · intro f hf
      obtain ⟨hcl, _, hnext, hstart, hend, _⟩ := hinv.1.2 f hf
      rw [hrc]
      refine ⟨hcl, hnext, ?_, ?_⟩
      · have hv := latLng_eq_some _ _ hstart
        rw [List.getD_eq_getElem _ _ hinv.1.1] at hv
        rw [List.getElem?_eq_getElem hinv.1.1, hv]
      · have hv := latLng_eq_some _ _ hend
        rw [List.getD_eq_getElem _ _ hnext] at hv
        rw [List.getElem?_eq_getElem hnext, hv]
  · intro pts hcoords
    have hpts : pts ≠ [] := by
      intro h
      apply hne
      rw [hcoords, h]
      rfl
    obtain ⟨s1, h1⟩ := clickToggle_start_isSome_of_points distanceTo pts st hpts hcoords hidle
    have hinv1 := clickToggle_start_preserves distanceTo st s1 hne hidle h1
    have hinv1p : SegmentInvariant (pts.map JsVal.point) s1 := hcoords ▸ hinv1.1
    obtain ⟨s, hs⟩ := runFrames_isSome_of_points distanceTo pts ts s1 hinv1p
    exact ⟨s1, s, h1, hs⟩

theorem segment_index_in_range_witness :
    ∃ s1 s, clickToggle fiftyMetres firstRouteLoaded = some s1
      ∧ runFrames fiftyMetres [1000, 1050] s1 = some s
      ∧ s.routeIndex < s.routeCoords.length :=
  ((segment_index_in_range fiftyMetres firstRouteLoaded [1000, 1050] (by simp [firstRouteLoaded])
      rfl).2 [(25.4358, 81.8463), (25.555, 81.9863)] rfl).elim
    (fun s1 h => h.elim (fun s h2 =>
      ⟨s1, s, h2.1, h2.2,
        ((segment_index_in_range fiftyMetres firstRouteLoaded [1000, 1050]
          (by simp [firstRouteLoaded]) rfl).1 s1 s h2.1 h2.2).2.2.1⟩))

theorem moveVehicle_vehiclePos (distanceTo : ℚ × ℚ → ℚ × ℚ → ℚ) (cl : Closure) (st s : State)
    (hs : moveVehicle distanceTo cl st = some s) :
    s.vehiclePos = st.vehiclePos
      ∧ (∀ f, s.frame = some f → s.isMoving = st.isMoving) := by
  unfold moveVehicle at hs
  split at hs
  · cases hs
    exact ⟨rfl, fun _ _ => rfl⟩
  · simp only at hs
    split at hs
    · cases hs
      exact ⟨rfl, fun f hf => by cases hf⟩
    · split at hs
      · cases hs
        exact ⟨rfl, fun _ _ => rfl⟩
      · cases hs

theorem animate_vehiclePos (distanceTo : ℚ × ℚ → ℚ × ℚ → ℚ) (timestamp : ℚ) (st s : State)
    (hs : animate distanceTo timestamp st = some s) :
    s.vehiclePos = st.vehiclePos
      ∨ ∃ f p, st.frame = some f ∧ p < 1
          ∧ s.vehiclePos = JsVal.point (interpolate f.start f.endPoint p) := by
  unfold animate at hs
  split at hs
  · cases hs
    exact Or.inl rfl
  · rename_i f hf
    simp only at hs
    split at hs
    · split at hs
      · cases hs
      · exact Or.inl (moveVehicle_vehiclePos distanceTo _ _ s hs).1
    · split at hs
      · rename_i hp
        cases hs
        exact Or.inr ⟨f, _, hf, hp, rfl⟩
      · exact Or.inl (moveVehicle_vehiclePos distanceTo _ _ s hs).1

/-- A pending frame implies the moving flag: the start command, which needs
the flag false, never runs while a callback is pending, so at most one
callback is pending at any time. -/
theorem pending_frame_implies_moving (distanceTo : ℚ × ℚ → ℚ × ℚ → ℚ) (st s : State) :
    (clickToggle distanceTo st = some s → ∀ f, s.frame = some f → s.isMoving = true)
      ∧ (∀ timestamp, (∀ f, st.frame = some f → st.isMoving = true) →
          animate distanceTo timestamp st = some s → ∀ f, s.frame = some f → s.isMoving = true)
      ∧ (∀ apiKey fmt get value, (∀ f, st.frame = some f → st.isMoving = true) →
          ∀ f, (handleRouteChange apiKey fmt get value st).state.frame = some f →
            (handleRouteChange apiKey fmt get value st).state.isMoving = true) := by
  refine ⟨?_, ?_, ?_⟩
  · intro hs f hf
    unfold clickToggle toggleMovement at hs
    simp only at hs
    split at hs
    · rename_i hprev
      split at hs
      · cases hs
      · cases hs
        simp [hprev]
    · cases hs
      cases hf
  · intro timestamp hst hs f hf
    unfold animate at hs
    split at hs
    · cases hs
      exact hst f hf
    · rename_i g hg
      simp only at hs
      split at hs
      · split at hs
        · cases hs
        · rw [(moveVehicle_vehiclePos distanceTo _ _ s hs).2 f hf]
          exact hst g hg
      · split at hs
        · cases hs
          exact hst g hg
        · rw [(moveVehicle_vehiclePos distanceTo _ _ s hs).2 f hf]
          exact hst g hg
  · intro apiKey fmt get value hst f hf
    cases hr : lookupRoute value with
    | none =>
      simp only [handleRouteChange, hr] at hf ⊢
      exact hst f hf
    | some r =>
      simp only [handleRouteChange, hr] at hf ⊢
      rcases fetchRoute_state_cases apiKey fmt get r.waypoints
        { st with selectedRoute := .route r } with h | ⟨coords, h⟩
      · rw [h] at hf ⊢
        exact hst f hf
      · rw [h] at hf ⊢
        exact hst f hf

theorem interpolate_ne_endPoint (a b : ℚ × ℚ) (p : ℚ) (hab : a ≠ b) (hp : p < 1) :
    interpolate a b p ≠ b := by
  intro h
  apply hab
  have h1 : a.1 + p * (b.1 - a.1) = b.1 := congrArg Prod.fst h
  have h2 : a.2 + p * (b.2 - a.2) = b.2 := congrArg Prod.snd h
  have hne : (1 - p) ≠ 0 := by linarith
  have e1 : (1 - p) * (b.1 - a.1) = 0 := by linarith
  have e2 : (1 - p) * (b.2 - a.2) = 0 := by linarith
  have f1 : b.1 - a.1 = 0 := (mul_eq_zero.mp e1).resolve_left hne
  have f2 : b.2 - a.2 = 0 := (mul_eq_zero.mp e2).resolve_left hne
  exact Prod.ext (by linarith) (by linarith)

theorem point_injective (p q : ℚ × ℚ) (h : JsVal.point p = JsVal.point q) : p = q := by
  simp only [JsVal.point, JsVal.arr.injEq, List.cons.injEq, JsVal.num.injEq, and_true] at h
  exact Prod.ext h.1 h.2

theorem runFrames_two_points_never_at_end (distanceTo : ℚ × ℚ → ℚ × ℚ → ℚ) (a b : ℚ × ℚ)
    (hab : a ≠ b) (ts : List ℚ) (st s : State)
    (hinv : SegmentInvariant [JsVal.point a, JsVal.point b] st)
    (hpos : st.vehiclePos ≠ JsVal.point b)
    (hs : runFrames distanceTo ts st = some s) : s.vehiclePos ≠ JsVal.point b := by
  induction ts generalizing st with
  | nil =>
    simp only [runFrames, Option.some.injEq] at hs
    subst hs
    exact hpos
  | cons t rest ih =>
    unfold runFrames at hs
    cases h1 : animate distanceTo t st with
    | none => simp [h1] at hs
    | some st1 =>
      simp only [h1] at hs
      have hstep := animate_preserves distanceTo _ t st st1 hinv h1
      refine ih st1 hstep.1 ?_ hs
      rcases animate_vehiclePos distanceTo t st st1 h1 with h | ⟨f, p, hf, hp, h⟩
      · rw [h]
        exact hpos
      · obtain ⟨_, _, hnext, hstart, hend, _⟩ := hinv.2 f hf
        have hidx : st.routeIndex = 0 := by
          simp only [List.length_cons, List.length_nil] at hnext
          omega
        rw [hidx] at hstart hend
        have hfa : f.start = a := by
          have := latLng_eq_some _ _ hstart
          exact (point_injective _ _ this).symm
        have hfb : f.endPoint = b := by
          have := latLng_eq_some _ _ hend
          exact (point_injective _ _ this).symm
        rw [h, hfa, hfb]
        intro hcontra
        exact interpolate_ne_endPoint a b p hab hp (point_injective _ _ hcontra)

/-- C3 (evaluation of the code): on the two-point geometry of the first
route, with a segment duration of 100 ms, the start command followed by
frames at 1000, 1050 and 1100 ms ends the run (the last frame has progress 1):
the moving flag is false and no frame is pending, but `vehiclePos` is the
point written at progress 1/2, not the final element of `routeCoords`.  No
timing does better: on a geometry of two distinct points, after the start
command and any sequence of frames `vehiclePos` differs from the final
element. -/
theorem run_to_end_leaves_last_interpolated_position :
    (clickToggle fiftyMetres firstRouteLoaded).bind (runFrames fiftyMetres [1000, 1050, 1100])
        = some { firstRouteLoaded with vehiclePos := JsVal.point (25.4954, 81.9163),
                                       isMoving := false, routeIndex := 1, frame := none }
      ∧ JsVal.point (25.4954, 81.9163) ≠ JsVal.point (25.555, 81.9863)
      ∧ ∀ (distanceTo : ℚ × ℚ → ℚ × ℚ → ℚ) (a b : ℚ × ℚ) (ts : List ℚ) (s1 s : State),
          a ≠ b → clickToggle distanceTo (loadedGeometry [a, b]) = some s1 →
          runFrames distanceTo ts s1 = some s → s.vehiclePos ≠ JsVal.point b := by
  refine ⟨?_, ?_, ?_⟩
  · have hstart : clickToggle fiftyMetres firstRouteLoaded
        = some { firstRouteLoaded with
            isMoving := true,
            frame := some { closure := firstRouteLoaded.render, start := (25.4358, 81.8463),
                            endPoint := (25.555, 81.9863), duration := 100,
                            startTime := none } } := by
      simp [clickToggle, toggleMovement, moveVehicle, firstRouteLoaded, State.render,
        JsVal.point, JsVal.falsy, latLng, fiftyMetres, speed]
      norm_num
    rw [hstart]
    simp [runFrames, animate, moveVehicle, firstRouteLoaded, State.render, interpolate,
      JsVal.point, JsVal.falsy, latLng, fiftyMetres, speed]
    norm_num
  · simp [JsVal.point]
    norm_num
  · intro distanceTo a b ts s1 s hab h1 hs
    have hne : (loadedGeometry [a, b]).routeCoords ≠ [] := by
      simp [loadedGeometry]
    have hinv1 := clickToggle_start_preserves distanceTo _ s1 hne rfl h1
    have hpos1 : s1.vehiclePos ≠ JsVal.point b := by
      rw [clickToggle_start_eq distanceTo _ rfl] at h1
      cases hm : moveVehicle distanceTo (loadedGeometry [a, b]).render
          { loadedGeometry [a, b] with routeIndex := 0 } with
      | none => simp [hm] at h1
      | some s0 =>
        simp only [hm, Option.map_some', Option.some.injEq] at h1
        subst h1
        have hv := (moveVehicle_vehiclePos distanceTo _ _ s0 hm).1
        simp only [hv, loadedGeometry, List.map_cons, List.getD_cons_zero]
        intro hcontra
        exact hab (point_injective _ _ hcontra)
    exact runFrames_two_points_never_at_end distanceTo a b hab ts s1 s hinv1.1 hpos1 hs

end VehicleTracker
